import Mathlib

/-!
Shallow embedding of the stub `stbi_load` / `stbi_image_free` implementation
found in `src/libs/stb/stb_image.h`, together with proofs of its contract.

The C function ignores its `filename` and `req_comp` arguments, sets
`*x = 64`, `*y = 64`, `*comp = 3`, allocates `64 * 64 * 3` bytes with
`malloc`, and fills them with an 8-by-8-tile checkerboard: pixel `(i, j)`
is `(255, 0, 0)` when `(i / 8 + j / 8) % 2 == 0` and `(0, 255, 0)`
otherwise, written at byte offsets `(i * 64 + j) * 3 + {0, 1, 2}`.

Byte memory is modelled as a total function `Nat → Nat`; a C store
`data[a] = v` becomes the pointwise update `wr m a v`.  Since `malloc`
returns memory with unspecified contents, the fill is parametrised by the
initial contents `init` of the allocation (`stbi_loadFrom`); the canonical
`stbi_load` instantiates `init` with the all-zero memory, and the
theorems below show the result never depends on `init` inside the buffer.
-/

/-- Byte-addressed memory: the contents of the allocated buffer. -/
def Mem : Type := Nat → Nat

/-- Single byte store, the model of the C assignment `data[a] = v`. -/
def wr (m : Mem) (a v : Nat) : Mem := fun p => if p = a then v else m p

/-- Body of the inner loop of `stbi_load`: the three byte stores for pixel
`(i, j)` at `idx = (i * x + j) * 3`, with the checkerboard branch from the
source. -/
def writePixel (m : Mem) (x i j : Nat) : Mem :=
  let idx := (i * x + j) * 3
  if (i / 8 + j / 8) % 2 = 0 then
    wr (wr (wr m idx 255) (idx + 1) 0) (idx + 2) 0
  else
    wr (wr (wr m idx 0) (idx + 1) 255) (idx + 2) 0

/-- The inner `for (j = 0; j < x; j++)` loop of `stbi_load` for row `i`. -/
def fillRow (m : Mem) (x i : Nat) : Mem :=
  (List.range x).foldl (fun d j => writePixel d x i j) m

/-- The outer `for (i = 0; i < y; i++)` loop of `stbi_load`. -/
def fill (m : Mem) (x y : Nat) : Mem :=
  (List.range y).foldl (fun d i => fillRow d x i) m

/-- Everything `stbi_load` hands back to its caller: the buffer contents,
the size of the allocation, and the three out-parameters. -/
structure LoadResult where
  data : Mem
  size : Nat
  x : Nat
  y : Nat
  comp : Nat

/-- Translation of the body of `stbi_load`, parametrised by the contents
`init` that `malloc` happened to return.  `filename` and `req_comp` are
taken and ignored, exactly as in the source. -/
def stbi_loadFrom (init : Mem) (filename : String) (req_comp : Int) : LoadResult :=
  let x := 64
  let y := 64
  let comp := 3
  let size := x * y * 3
  let data := fill init x y
  { data := data, size := size, x := x, y := y, comp := comp }

/-- The stub `stbi_load`, with `malloc` modelled as returning zeroed
memory; `stbi_loadFrom` quantifies over the actual unspecified contents. -/
def stbi_load (filename : String) (req_comp : Int) : LoadResult :=
  stbi_loadFrom (fun _ => 0) filename req_comp

/-- Value of channel `k` of pixel `(i, j)` under the checkerboard rule of
the source: red `(255, 0, 0)` on even tile-parity, green `(0, 255, 0)`
on odd. -/
def pixelByte (i j k : Nat) : Nat :=
  if (i / 8 + j / 8) % 2 = 0 then
    if k = 0 then 255 else 0
  else
    if k = 1 then 255 else 0

/-- The call `stbi_load` wrapped with an explicit allocation outcome:
`none` models `malloc` failure (in which case the C code would write
through a null pointer, so no buffer is ever produced), `some init`
models a successful allocation with contents `init`. -/
def stbi_loadWith (alloc : Option Mem) (filename : String) (req_comp : Int) :
    Option LoadResult :=
  match alloc with
  | none => none
  | some init => some (stbi_loadFrom init filename req_comp)

/-- Instrumented inner loop: identical stores, plus a counter incremented
once per iteration. -/
def fillRowCount (s : Mem × Nat) (x i : Nat) : Mem × Nat :=
  (List.range x).foldl (fun s j => (writePixel s.1 x i j, s.2 + 1)) s

/-- Instrumented outer loop, counting every inner-loop iteration. -/
def fillCount (s : Mem × Nat) (x y : Nat) : Mem × Nat :=
  (List.range y).foldl (fun s i => fillRowCount s x i) s

/-- Number of inner-loop iterations performed by `stbi_load`; the
`filename` and `req_comp` arguments are taken to record that the count
cannot depend on them. -/
def stbi_loadIterations (init : Mem) (filename : String) (req_comp : Int) : Nat :=
  (fillCount (init, 0) 64 64).2

theorem wr_same (m : Mem) (a v : Nat) : wr m a v a = v := by
  simp [wr]

theorem wr_other (m : Mem) (a v p : Nat) (h : p ≠ a) : wr m a v p = m p := by
  simp [wr, h]

theorem writePixel_at (m : Mem) (x i j k : Nat) (hk : k < 3) :
    writePixel m x i j ((i * x + j) * 3 + k) = pixelByte i j k := by
  have hk3 : k = 0 ∨ k = 1 ∨ k = 2 := by omega
  simp only [writePixel]
  split <;> rename_i hp <;>
    rcases hk3 with h | h | h <;> subst h <;> simp [wr, pixelByte, hp]

theorem writePixel_outside (m : Mem) (x i j p : Nat)
    (h : p < (i * x + j) * 3 ∨ (i * x + j) * 3 + 3 ≤ p) :
    writePixel m x i j p = m p := by
  simp only [writePixel]
  split <;>
    rw [wr_other _ _ _ _ (by omega), wr_other _ _ _ _ (by omega),
      wr_other _ _ _ _ (by omega)]

theorem rowFold_outside (x i : Nat) : ∀ (n : Nat) (m : Mem) (p : Nat),
    p < i * x * 3 ∨ (i * x + n) * 3 ≤ p →
    (List.range n).foldl (fun d j => writePixel d x i j) m p = m p := by
  intro n
  induction n with
  | zero => intro m p _; rfl
  | succ n ih =>
    intro m p h
    rw [List.range_succ, List.foldl_append]
    simp only [List.foldl_cons, List.foldl_nil]
    rw [writePixel_outside _ _ _ _ _ (by omega)]
    exact ih m p (by omega)

theorem rowFold_at (x i : Nat) : ∀ (n : Nat) (m : Mem) (j k : Nat),
    j < n → k < 3 →
    (List.range n).foldl (fun d j => writePixel d x i j) m ((i * x + j) * 3 + k) =
      pixelByte i j k := by
  intro n
  induction n with
  | zero => intro m j k hj _; exact absurd hj (Nat.not_lt_zero j)
  | succ n ih =>
    intro m j k hj hk
    rw [List.range_succ, List.foldl_append]
    simp only [List.foldl_cons, List.foldl_nil]
    by_cases hjn : j = n
    · subst hjn
      exact writePixel_at _ _ _ _ _ hk
    · rw [writePixel_outside _ _ _ _ _ (by omega)]
      exact ih m j k (by omega) hk

theorem fillRow_outside (m : Mem) (x i p : Nat)
    (h : p < i * x * 3 ∨ (i * x + x) * 3 ≤ p) :
    fillRow m x i p = m p :=
  rowFold_outside x i x m p h

theorem fillRow_at (m : Mem) (x i j k : Nat) (hj : j < x) (hk : k < 3) :
    fillRow m x i ((i * x + j) * 3 + k) = pixelByte i j k :=
  rowFold_at x i x m j k hj hk

theorem colFold_at (x : Nat) : ∀ (n : Nat) (m : Mem) (i j k : Nat),
    i < n → j < x → k < 3 →
    (List.range n).foldl (fun d i => fillRow d x i) m ((i * x + j) * 3 + k) =
      pixelByte i j k := by
  intro n
  induction n with
  | zero => intro m i j k hi _ _; exact absurd hi (Nat.not_lt_zero i)
  | succ n ih =>
    intro m i j k hi hj hk
    rw [List.range_succ, List.foldl_append]
    simp only [List.foldl_cons, List.foldl_nil]
    by_cases hin : i = n
    · subst hin
      exact fillRow_at _ _ _ _ _ hj hk
    · have hmul : i * x + x ≤ n * x := by
        have h1 : (i + 1) * x ≤ n * x := Nat.mul_le_mul_right x (by omega)
        have h2 : (i + 1) * x = i * x + x := Nat.succ_mul i x
        omega
      rw [fillRow_outside _ _ _ _ (by omega)]
      exact ih m i j k (by omega) hj hk

theorem stbi_loadFrom_byte (init : Mem) (filename : String) (req_comp : Int)
    (i j k : Nat) (hi : i < 64) (hj : j < 64) (hk : k < 3) :
    (stbi_loadFrom init filename req_comp).data ((i * 64 + j) * 3 + k) =
      pixelByte i j k :=
  colFold_at 64 64 init i j k hi hj hk

theorem stbi_load_byte (filename : String) (req_comp : Int)
    (i j k : Nat) (hi : i < 64) (hj : j < 64) (hk : k < 3) :
    (stbi_load filename req_comp).data ((i * 64 + j) * 3 + k) = pixelByte i j k :=
  stbi_loadFrom_byte (fun _ => 0) filename req_comp i j k hi hj hk

theorem stbi_loadFrom_byte_lt (init : Mem) (filename : String) (req_comp : Int)
    (p : Nat) (hp : p < 12288) :
    (stbi_loadFrom init filename req_comp).data p =
      pixelByte (p / 192) (p % 192 / 3) (p % 3) := by
  have h := stbi_loadFrom_byte init filename req_comp (p / 192) (p % 192 / 3) (p % 3)
    (by omega) (by omega) (by omega)
  have hEq : (p / 192 * 64 + p % 192 / 3) * 3 + p % 3 = p := by omega
  rw [hEq] at h
  exact h

/-- Claim C1: for every pixel coordinate `(row, col)` with
`0 ≤ row, col < 64`, the buffer returned by `stbi_load` holds the pixel
value `(255, 0, 0)` if `(row / 8 + col / 8) % 2 = 0` and `(0, 255, 0)`
otherwise. -/
theorem decode_checkerboard (filename : String) (req_comp : Int) (row col : Nat)
    (hr : row < 64) (hc : col < 64) :
    if (row / 8 + col / 8) % 2 = 0 then
      (stbi_load filename req_comp).data ((row * 64 + col) * 3) = 255 ∧
      (stbi_load filename req_comp).data ((row * 64 + col) * 3 + 1) = 0 ∧
      (stbi_load filename req_comp).data ((row * 64 + col) * 3 + 2) = 0
    else
      (stbi_load filename req_comp).data ((row * 64 + col) * 3) = 0 ∧
      (stbi_load filename req_comp).data ((row * 64 + col) * 3 + 1) = 255 ∧
      (stbi_load filename req_comp).data ((row * 64 + col) * 3 + 2) = 0 := by
  have h0 := stbi_load_byte filename req_comp row col 0 hr hc (by omega)
  have h1 := stbi_load_byte filename req_comp row col 1 hr hc (by omega)
  have h2 := stbi_load_byte filename req_comp row col 2 hr hc (by omega)
  by_cases hp : (row / 8 + col / 8) % 2 = 0 <;>
    simp only [pixelByte, hp, if_true, if_false, Nat.add_zero, if_pos, if_neg,
      reduceIte] at h0 h1 h2 <;>
    simp [hp, h0, h1, h2]

/-- Witness for C1 at `(row, col) = (0, 0)`: the hypotheses hold and the
top-left pixel is red. -/
theorem decode_checkerboard_witness :
    (0 : Nat) < 64 ∧
      (stbi_load "image.png" 3).data 0 = 255 ∧
      (stbi_load "image.png" 3).data 1 = 0 ∧
      (stbi_load "image.png" 3).data 2 = 0 := by
  refine ⟨by decide, ?_⟩
  have h := decode_checkerboard "image.png" 3 0 0 (by decide) (by decide)
  simpa using h

/-- Claim C2: for every path and every requested channel count,
`stbi_load` reports width 64, height 64 and 3 channels. -/
theorem decode_dimensions (filename : String) (req_comp : Int) :
    (stbi_load filename req_comp).x = 64 ∧
    (stbi_load filename req_comp).y = 64 ∧
    (stbi_load filename req_comp).comp = 3 :=
  ⟨rfl, rfl, rfl⟩

/-- Claim C3: after every call to `stbi_load` the allocation size equals
width times height times channel count, namely 12288 bytes. -/
theorem decode_size (filename : String) (req_comp : Int) :
    (stbi_load filename req_comp).size =
      (stbi_load filename req_comp).x * (stbi_load filename req_comp).y *
        (stbi_load filename req_comp).comp ∧
    (stbi_load filename req_comp).size = 12288 :=
  ⟨rfl, rfl⟩

/-- Claim C4: two calls with any path arguments, any requested channel
counts and any contents handed back by the allocator agree on width,
height, channel count and size, and their buffers are byte-identical:
the output depends on neither input. -/
theorem decode_input_independent (initA initB : Mem) (fA fB : String) (rA rB : Int) :
    (stbi_loadFrom initA fA rA).x = (stbi_loadFrom initB fB rB).x ∧
    (stbi_loadFrom initA fA rA).y = (stbi_loadFrom initB fB rB).y ∧
    (stbi_loadFrom initA fA rA).comp = (stbi_loadFrom initB fB rB).comp ∧
    (stbi_loadFrom initA fA rA).size = (stbi_loadFrom initB fB rB).size ∧
    ∀ p, p < (stbi_loadFrom initA fA rA).size →
      (stbi_loadFrom initA fA rA).data p = (stbi_loadFrom initB fB rB).data p := by
  refine ⟨rfl, rfl, rfl, rfl, ?_⟩
  intro p hp
  have hp12 : p < 12288 := hp
  rw [stbi_loadFrom_byte_lt initA fA rA p hp12, stbi_loadFrom_byte_lt initB fB rB p hp12]

/-- Witness for C4: two calls with different garbage allocations, paths
and channel requests agree at byte 0. -/
theorem decode_input_independent_witness :
    (0 : Nat) < 12288 ∧
      (stbi_loadFrom (fun _ => 7) "a.png" 1).data 0 =
        (stbi_loadFrom (fun _ => 9) "b.bmp" 4).data 0 := by
  refine ⟨by decide, ?_⟩
  exact (decode_input_independent (fun _ => 7) (fun _ => 9) "a.png" "b.bmp" 1 4).2.2.2.2
    0 (by decide)

/-- Claim C5: the concrete scenario `stbi_load "nonexistent.png" 4`
succeeds with a 64-by-64, 3-channel, 12288-byte buffer in which pixel
`(0,0)` is `(255,0,0)` (bytes 0..2), pixel `(8,0)` is `(0,255,0)`
(bytes 1536..1538) and pixel `(8,8)` is `(255,0,0)` (bytes 1560..1562). -/
theorem decode_nonexistent_scenario :
    (stbi_load "nonexistent.png" 4).x = 64 ∧
    (stbi_load "nonexistent.png" 4).y = 64 ∧
    (stbi_load "nonexistent.png" 4).comp = 3 ∧
    (stbi_load "nonexistent.png" 4).size = 12288 ∧
    ((stbi_load "nonexistent.png" 4).data 0 = 255 ∧
      (stbi_load "nonexistent.png" 4).data 1 = 0 ∧
      (stbi_load "nonexistent.png" 4).data 2 = 0) ∧
    ((stbi_load "nonexistent.png" 4).data 1536 = 0 ∧
      (stbi_load "nonexistent.png" 4).data 1537 = 255 ∧
      (stbi_load "nonexistent.png" 4).data 1538 = 0) ∧
    ((stbi_load "nonexistent.png" 4).data 1560 = 255 ∧
      (stbi_load "nonexistent.png" 4).data 1561 = 0 ∧
      (stbi_load "nonexistent.png" 4).data 1562 = 0) := by
  have a0 := stbi_load_byte "nonexistent.png" 4 0 0 0 (by omega) (by omega) (by omega)
  have a1 := stbi_load_byte "nonexistent.png" 4 0 0 1 (by omega) (by omega) (by omega)
  have a2 := stbi_load_byte "nonexistent.png" 4 0 0 2 (by omega) (by omega) (by omega)
  have b0 := stbi_load_byte "nonexistent.png" 4 8 0 0 (by omega) (by omega) (by omega)
  have b1 := stbi_load_byte "nonexistent.png" 4 8 0 1 (by omega) (by omega) (by omega)
  have b2 := stbi_load_byte "nonexistent.png" 4 8 0 2 (by omega) (by omega) (by omega)
  have c0 := stbi_load_byte "nonexistent.png" 4 8 8 0 (by omega) (by omega) (by omega)
  have c1 := stbi_load_byte "nonexistent.png" 4 8 8 1 (by omega) (by omega) (by omega)
  have c2 := stbi_load_byte "nonexistent.png" 4 8 8 2 (by omega) (by omega) (by omega)
  norm_num [pixelByte] at a0 a1 a2 b0 b1 b2 c0 c1 c2
  exact ⟨rfl, rfl, rfl, rfl, ⟨a0, a1, a2⟩, ⟨b0, b1, b2⟩, ⟨c0, c1, c2⟩⟩

/-- Claim C6: every byte of the 12288-byte buffer is deterministically
assigned by the checkerboard rule before return, whatever contents the
allocator handed over, so no unwritten allocator byte is exposed. -/
theorem decode_every_byte_written (init : Mem) (filename : String) (req_comp : Int)
    (p : Nat) (hp : p < (stbi_loadFrom init filename req_comp).size) :
    (stbi_loadFrom init filename req_comp).data p =
      pixelByte (p / 192) (p % 192 / 3) (p % 3) :=
  stbi_loadFrom_byte_lt init filename req_comp p hp

/-- Witness for C6 at byte 5 of an allocation whose every byte initially
held the garbage value 77. -/
theorem decode_every_byte_written_witness :
    (5 : Nat) < 12288 ∧
      (stbi_loadFrom (fun _ => 77) "image.png" 0).data 5 = pixelByte 0 1 2 :=
  ⟨by decide, decode_every_byte_written (fun _ => 77) "image.png" 0 5 (by decide)⟩

/-- Claim C7: under the hypothesis that allocation succeeds, `stbi_load`
never reports an error: for every path and requested channel count it
returns a buffer with its full metadata, so there is no user-visible
failure path. -/
theorem decode_never_fails (alloc : Option Mem) (filename : String) (req_comp : Int)
    (h : alloc.isSome = true) :
    ∃ res, stbi_loadWith alloc filename req_comp = some res ∧
      res.size = 12288 ∧ res.x = 64 ∧ res.y = 64 ∧ res.comp = 3 := by
  cases alloc with
  | none => simp at h
  | some init => exact ⟨stbi_loadFrom init filename req_comp, rfl, rfl, rfl, rfl, rfl⟩

/-- Witness for C7 with a concrete successful allocation. -/
theorem decode_never_fails_witness :
    (some (fun _ => 0) : Option Mem).isSome = true ∧
      ∃ res, stbi_loadWith (some (fun _ => 0)) "whatever.png" 2 = some res ∧
        res.size = 12288 ∧ res.x = 64 ∧ res.y = 64 ∧ res.comp = 3 :=
  ⟨rfl, decode_never_fails (some (fun _ => 0)) "whatever.png" 2 rfl⟩

theorem rowCountFold_eq (x i : Nat) : ∀ (n : Nat) (s : Mem × Nat),
    (List.range n).foldl (fun s j => (writePixel s.1 x i j, s.2 + 1)) s =
      ((List.range n).foldl (fun d j => writePixel d x i j) s.1, s.2 + n) := by
  intro n
  induction n with
  | zero => intro s; simp
  | succ n ih =>
    intro s
    rw [List.range_succ, List.foldl_append, List.foldl_append]
    simp only [List.foldl_cons, List.foldl_nil, ih]
    rw [Nat.add_assoc]

theorem fillRowCount_pair (s : Mem × Nat) (x i : Nat) :
    fillRowCount s x i = (fillRow s.1 x i, s.2 + x) :=
  rowCountFold_eq x i x s

theorem colCountFold_eq (x : Nat) : ∀ (n : Nat) (s : Mem × Nat),
    (List.range n).foldl (fun s i => fillRowCount s x i) s =
      ((List.range n).foldl (fun d i => fillRow d x i) s.1, s.2 + n * x) := by
  intro n
  induction n with
  | zero => intro s; simp
  | succ n ih =>
    intro s
    rw [List.range_succ, List.foldl_append, List.foldl_append]
    simp only [List.foldl_cons, List.foldl_nil]
    rw [ih, fillRowCount_pair]
    simp [Nat.succ_mul, Nat.add_assoc]

/-- Claim C8: `stbi_load` is a total function (every definition here is
structurally recursive, so it terminates on every input) and its fill
loop performs exactly the fixed 64 times 64 iterations, independently of
the path, the requested channel count and the allocator contents; the
instrumented loop computes the very buffer `stbi_load` returns. -/
theorem decode_fixed_iterations (init : Mem) (filename : String) (req_comp : Int) :
    stbi_loadIterations init filename req_comp = 64 * 64 ∧
    (fillCount (init, 0) 64 64).1 = (stbi_loadFrom init filename req_comp).data := by
  have h : fillCount (init, 0) 64 64 = (fill init 64 64, 0 + 64 * 64) :=
    colCountFold_eq 64 64 (init, 0)
  constructor
  · show (fillCount (init, 0) 64 64).2 = 64 * 64
    rw [h]
  · rw [h]
    rfl

/-- Claim C9: the buffer uses row-major, channel-interleaved layout: the
byte at offset `(i * 64 + j) * 3 + k` is channel `k` of pixel `(i, j)`
as produced by the pattern rule. -/
theorem decode_row_major_layout (filename : String) (req_comp : Int)
    (i j k : Nat) (hi : i < 64) (hj : j < 64) (hk : k < 3) :
    (stbi_load filename req_comp).data ((i * 64 + j) * 3 + k) = pixelByte i j k :=
  stbi_load_byte filename req_comp i j k hi hj hk

/-- Witness for C9 at pixel `(1, 2)`, channel 1: tile parity is even, so
the green channel is 0. -/
theorem decode_row_major_layout_witness :
    (1 : Nat) < 64 ∧ (2 : Nat) < 64 ∧ (1 : Nat) < 3 ∧
      (stbi_load "tex.png" 0).data ((1 * 64 + 2) * 3 + 1) = pixelByte 1 2 1 :=
  ⟨by decide, by decide, by decide,
    decode_row_major_layout "tex.png" 0 1 2 1 (by decide) (by decide) (by decide)⟩

/-- Claim C10: the image is symmetric under transposition: each channel
byte of pixel `(i, j)` equals the same channel byte of pixel `(j, i)`. -/
theorem decode_transpose_symmetric (filename : String) (req_comp : Int)
    (i j k : Nat) (hi : i < 64) (hj : j < 64) (hk : k < 3) :
    (stbi_load filename req_comp).data ((i * 64 + j) * 3 + k) =
      (stbi_load filename req_comp).data ((j * 64 + i) * 3 + k) := by
  rw [stbi_load_byte filename req_comp i j k hi hj hk,
    stbi_load_byte filename req_comp j i k hj hi hk]
  unfold pixelByte
  rw [Nat.add_comm (i / 8) (j / 8)]

/-- Witness for C10 at `(i, j, k) = (0, 9, 1)`: byte 27 equals
byte 1729. -/
theorem decode_transpose_symmetric_witness :
    (0 : Nat) < 64 ∧ (9 : Nat) < 64 ∧ (1 : Nat) < 3 ∧
      (stbi_load "s.png" 0).data ((0 * 64 + 9) * 3 + 1) =
        (stbi_load "s.png" 0).data ((9 * 64 + 0) * 3 + 1) :=
  ⟨by decide, by decide, by decide,
    decode_transpose_symmetric "s.png" 0 0 9 1 (by decide) (by decide) (by decide)⟩
